import Mathlib

/-!
# Verification of the Pacifica trade-replication engine

A shallow embedding, in Lean 4, of the core of the PacificaTrading
repository: the amount-quantization arithmetic and the per-relationship
replication pipeline of `src/utils/validation.ts` (`replicateToUser`,
`replicateTrade`, `updateMasterSubscriptions`), the rate-limited dispatch
queue of `src/api/rest-client.ts` (`PacificaRestClient.processQueue`) and
its signing canonicalization (`sortKeys` / `sign`), and the reconnect /
subscription behaviour of the feed client (`PacificaWebSocketClient`).

JavaScript numbers are modelled as rationals (`ℚ`): the sizing arithmetic
of the pipeline is plain field arithmetic plus `Math.floor`, which on the
magnitudes involved is exact; wire-boundary decimal text is parsed into
the same rationals.  Network reads are modelled as an explicit environment
record: each fallible read is an `Option`/flag describing what the call
would return (`none` = the failure branch of the source).
-/

namespace Pacifica

/-! ## Amount quantization (validation.ts:939-945, 973-990)

`copierAmount = Math.floor(copierAmount / lotSize) * lotSize`. -/

/-- `Math.floor(x / lot) * lot`, the lot-size rounding used by
`replicateToUser` (validation.ts:944 and 980). -/
def quantizeLot (lot x : ℚ) : ℚ := (⌊x / lot⌋ : ℚ) * lot

/-! ## The rate-limited dispatch queue (rest-client.ts:98-145)

`processQueue` dispatches the head of the FIFO queue only while
`requestsPerMinute < maxRequestsPerMinute`; the counter is incremented on
every dispatch and reset to `0` by the `setInterval` tick installed in the
constructor (rest-client.ts:52-55).  One unit of counted work below is one
attempted dispatch of the loop; the 60-second interval tick is the `tick`
action. -/

/-- `maxRequestsPerMinute = 90` (rest-client.ts:42). -/
def maxRequestsPerMinute : ℕ := 90

/-- The two events that touch the rate counter: a dispatcher-loop attempt
to dequeue-and-fetch, and the 60-second reset tick. -/
inductive RLAction
  | tryDispatch
  | tick
deriving DecidableEq

/-- One step of the rate counter: a dispatch attempt succeeds (and
increments the counter, rest-client.ts:104-108) only when the counter is
below the ceiling; the interval tick resets the counter to zero
(rest-client.ts:53-55) regardless of its value. Returns the new counter
and whether a request was actually dispatched. -/
def rlStep (c : ℕ) : RLAction → ℕ × Bool
  | .tryDispatch => if c < maxRequestsPerMinute then (c + 1, true) else (c, false)
  | .tick => (0, false)

/-- Run a sequence of actions from counter `c`; returns the final counter
and the number of requests actually dispatched. -/
def rlRun (c : ℕ) : List RLAction → ℕ × ℕ
  | [] => (c, 0)
  | a :: as =>
    let s := rlStep c a
    let r := rlRun s.1 as
    (r.1, (if s.2 then 1 else 0) + r.2)

/-! ## 429 handling of the dispatcher (rest-client.ts:110-139) -/

/-- An entry of `requestQueue`: the pending request's identity and its
`retryCount` (initially `0`, rest-client.ts:154). -/
structure QueuedRequest where
  id : ℕ
  retryCount : ℕ
deriving DecidableEq

/-- How a dequeued request's promise settles. -/
inductive ReqSettle
  | resolved
  | rejectedRateLimit
  | rejectedHttp (status : ℕ)
deriving DecidableEq

/-- The effect of dispatching the head of the queue and receiving the
given HTTP status (rest-client.ts:110-139): on `429` with
`retryCount < 1`, wait 1000 ms, bump the count and `unshift` the request
back to the front; on a second `429` reject with the rate-limit error; on
any other non-2xx reject with status; on 2xx resolve. Returns the new
queue, the settled promise if any, and the delay taken before the next
loop iteration. -/
def dispatchHead : List QueuedRequest → ℕ → List QueuedRequest × Option (ℕ × ReqSettle) × Option ℕ
  | [], _ => ([], none, none)
  | r :: rest, status =>
    if status = 429 then
      if r.retryCount < 1 then
        ({ r with retryCount := r.retryCount + 1 } :: rest, none, some 1000)
      else
        (rest, some (r.id, .rejectedRateLimit), none)
    else if 200 ≤ status ∧ status < 300 then
      (rest, some (r.id, .resolved), none)
    else
      (rest, some (r.id, .rejectedHttp status), none)

/-! ## Feed reconnect backoff (part_001:168-184, `PacificaWebSocketClient.reconnect`) -/

/-- `maxReconnectAttempts = 10` (part_001:33). -/
def maxReconnectAttempts : ℕ := 10

/-- `baseReconnectDelay = 1000` ms, i.e. one time unit (part_001:34). -/
def baseReconnectDelay : ℕ := 1000

/-- What `reconnect()` decides after a failed/closed session: schedule a
new `connect()` after a delay, or give up, emitting a terminal error to
the owner and scheduling nothing. -/
inductive ReconnectDecision
  | schedule (delayMs : ℕ)
  | giveUpFatal
deriving DecidableEq

/-- `reconnect()` (part_001:168-184): with `reconnectAttempts` already at
the cap it emits the terminal error and returns; otherwise it schedules
`connect()` after `baseReconnectDelay * 2 ^ reconnectAttempts` ms and
increments the counter.  Returns the decision and the new counter. -/
def reconnectStep (attempts : ℕ) : ReconnectDecision × ℕ :=
  if maxReconnectAttempts ≤ attempts then (.giveUpFatal, attempts)
  else (.schedule (baseReconnectDelay * 2 ^ attempts), attempts + 1)

/-! ## Subscription reconciliation (validation.ts:794, 1089-1126, 1157-1178)

The server keeps the module-level set `activeSubscriptions` of master
wallets it believes are subscribed.  On the `connected` event it runs
`updateMasterSubscriptions`, which subscribes only masters *not already in
the set* and unsubscribes set members with no active relationship.  The
`disconnected` handler (validation.ts:1173-1175) only logs; it does not
clear the set. -/

/-- Outbound feed control commands (part_001:101-136). -/
inductive WsCommand
  | subscribe (account : String)
  | unsubscribe (account : String)
deriving DecidableEq

/-- The subscribe loop of `updateMasterSubscriptions`
(validation.ts:1105-1112): for each active master not yet in
`activeSubscriptions`, send a subscribe command and add it to the set. -/
def subscribePhase (st : List String) (activeMasters : List String) :
    List String × List WsCommand :=
  activeMasters.foldl
    (fun acc m =>
      if acc.1.contains m then acc
      else (acc.1 ++ [m], acc.2 ++ [WsCommand.subscribe m]))
    (st, [])

/-- `updateMasterSubscriptions` (validation.ts:1089-1126): no-op unless
connected; then the subscribe loop over the distinct active masters,
followed by the unsubscribe loop over the resulting set
(validation.ts:1114-1120).  Returns the new `activeSubscriptions` set and
the commands sent, in order. -/
def updateMasterSubscriptions (connected : Bool) (activeMasters : List String)
    (st : List String) : List String × List WsCommand :=
  if connected = false then (st, [])
  else
    let p := subscribePhase st activeMasters
    let keep := p.1.filter (fun m => activeMasters.contains m)
    let unsubs := (p.1.filter (fun m => !(activeMasters.contains m))).map WsCommand.unsubscribe
    (keep, p.2 ++ unsubs)

/-- The server's `connected` handler (validation.ts:1158-1161): the client
was constructed without a wallet (validation.ts:1156), so the client-side
resubscribe of part_001:55-57 does nothing, and the handler just awaits
`updateMasterSubscriptions` on a live session. -/
def onConnectedHandler (activeMasters : List String) (st : List String) :
    List String × List WsCommand :=
  updateMasterSubscriptions true activeMasters st

/-- The server's `disconnected` handler (validation.ts:1173-1175): it only
logs; `activeSubscriptions` is left untouched. -/
def onDisconnectedHandler (st : List String) : List String := st

/-! ## The replication pipeline (validation.ts:861-1056)

`replicateToUser(relationship, trade)` sizes, clamps, quantizes and
risk-checks one order for one relationship, then submits it.  Its whole
body is wrapped in one `try/catch` whose handler only logs
(validation.ts:1048-1050). -/

/-- A normalized Fill, after the `parseFloat` calls of
validation.ts:892-893: `trade.symbol`, `trade.side`, `trade.amount`,
`trade.price`. -/
structure Trade where
  symbol : String
  side : String
  amount : ℚ
  price : ℚ
deriving DecidableEq

/-- The columns of a `copy_relationships` row read by `replicateToUser`
(model `CopyRelationship`, migrations 003/004).  Nullable numeric columns
are `Option ℚ`; the source guards them with JavaScript truthiness, so a
stored `0` behaves like `null`. -/
structure CopyRelationship where
  user_wallet : String
  master_wallet : String
  encrypted_api_key : String
  symbols : List String
  sizing_method : String
  sizing_value : ℚ
  symbol_multipliers : List (String × ℚ)
  max_position_cap : Option ℚ
  custom_leverage : Option ℚ
  max_total_exposure : Option ℚ
  is_active : Bool
deriving DecidableEq

/-- What the environment answers to the network calls one
`replicateToUser` run can make.  `none` models the failure branch of the
corresponding read (a rejected promise for `decryptApiKey`, `success:
false` for the REST reads).  Positions are `(amount, price)` pairs;
`positionsFetchOk` is `positionsResponse.success && positionsResponse.data`
(validation.ts:1012). -/
instance {ε α : Type} [DecidableEq ε] [DecidableEq α] : DecidableEq (Except ε α) :=
  fun x y =>
    match x, y with
    | .ok a, .ok b =>
      decidable_of_iff (a = b) ⟨fun h => by rw [h], fun h => by injection h⟩
    | .ok _, .error _ => isFalse fun h => Except.noConfusion h
    | .error _, .ok _ => isFalse fun h => Except.noConfusion h
    | .error e, .error f =>
      decidable_of_iff (e = f) ⟨fun h => by rw [h], fun h => by injection h⟩

structure ReplicationEnv where
  decryptResult : Option String
  apiUrl : Option String
  accountBalance : Option ℚ
  marketLotSize : Option ℚ
  publicClientAvailable : Bool
  positionsFetchOk : Bool
  positions : List (ℚ × ℚ)
  orderResult : Except String Bool
deriving DecidableEq

/-- The early-`return` reasons of `replicateToUser`, in source order. -/
inductive SkipReason
  | symbolFiltered
  | decryptFailed
  | apiUrlMissing
  | balanceReadFailed
  | unknownSizingMethod
  | belowLotSize
  | belowLotAfterLeverage
  | insufficientBalance
  | noPublicClient
  | exposureExceeded
deriving DecidableEq

/-- Exceptions that can be thrown inside the `try` block and reach the
outer `catch` (validation.ts:1048): `getSide` on an unknown trade side
(validation.ts:850-858) and a rejected `createMarketOrder` promise. -/
inductive RepError
  | unknownSide (s : String)
  | submitReject (msg : String)
deriving DecidableEq

/-- The market order handed to
`userRestClient.createMarketOrder` (validation.ts:1036-1042); the
`slippage_percent: '0.5'` literal is the rational `1/2`. -/
structure MarketOrder where
  symbol : String
  amount : ℚ
  side : String
  slippage_percent : ℚ
  reduce_only : Bool
deriving DecidableEq

/-- How one `replicateToUser` run ends. -/
inductive RepFinal
  | skip (r : SkipReason)
  | orderOk
  | orderFailedLogged
  | caught (e : RepError)
deriving DecidableEq

/-- The observable outcome of one `replicateToUser` run: the order passed
to the execution client, if the call was reached at all, and how the run
ended. -/
structure RepOutcome where
  submitted : Option MarketOrder
  final : RepFinal
deriving DecidableEq

/-- JavaScript truthiness of a nullable numeric column:
`if (relationship.max_position_cap)` is taken iff the value is present
and nonzero. -/
def truthyOpt (o : Option ℚ) : Option ℚ :=
  match o with
  | none => none
  | some x => if x = 0 then none else some x

/-- Occurrence of `sub` as a contiguous substring of `s`, scanning the
character list: the semantics of JavaScript `String.prototype.includes`. -/
def listContainsSub : List Char → List Char → Bool
  | [], sub => sub.isEmpty
  | c :: cs, sub => sub.isPrefixOf (c :: cs) || listContainsSub cs sub

/-- `trade.side.includes('close')` (validation.ts:1034). -/
def includesStr (s sub : String) : Bool := listContainsSub s.data sub.data

/-- `getSide` (validation.ts:850-858): `open_long`/`close_short` buy,
`close_long`/`open_short` sell, anything else throws. -/
def getSide (ts : String) : Except RepError String :=
  if ts = "open_long" ∨ ts = "close_short" then .ok "bid"
  else if ts = "close_long" ∨ ts = "open_short" then .ok "ask"
  else .error (.unknownSide ts)

/-- The base amount of the sizing `switch` (validation.ts:898-926):
`multiplier` → `masterAmount * sizing_value`; `fixed_usd` →
`sizing_value / masterPrice`; `balance_percent` →
`(available * sizing_value) / 100 / masterPrice` after a balance read
(skip on a failed read); any other method logs and returns. -/
def baseAmount (env : ReplicationEnv) (rel : CopyRelationship) (t : Trade) :
    Except SkipReason ℚ :=
  if rel.sizing_method = "multiplier" then .ok (t.amount * rel.sizing_value)
  else if rel.sizing_method = "fixed_usd" then .ok (rel.sizing_value / t.price)
  else if rel.sizing_method = "balance_percent" then
    match env.accountBalance with
    | none => .error .balanceReadFailed
    | some avail => .ok ((avail * rel.sizing_value) / 100 / t.price)
  else .error .unknownSizingMethod

/-- `relationship.symbol_multipliers?.[symbol]` applied multiplicatively
when truthy (validation.ts:929-931); `symbol` is the uppercased trade
symbol. -/
def afterSymbolMult (rel : CopyRelationship) (sym : String) (x : ℚ) : ℚ :=
  match truthyOpt ((rel.symbol_multipliers.find? (fun kv => kv.1 = sym)).map (·.2)) with
  | some m => x * m
  | none => x

/-- The optional position cap (validation.ts:934-937):
`min(copierAmount, max_position_cap / masterPrice)` when the cap is
truthy. -/
def afterPositionCap (rel : CopyRelationship) (t : Trade) (x : ℚ) : ℚ :=
  match truthyOpt rel.max_position_cap with
  | some cap => min x (cap / t.price)
  | none => x

/-- `lotSize` (validation.ts:940-941): the fetched market's `lot_size`, or
the `0.00001` fallback when `getMarketInfo` returned `null`. -/
def effectiveLotSize (env : ReplicationEnv) : ℚ :=
  match env.marketLotSize with
  | some l => l
  | none => 1 / 100000

/-- The pre-quantization sized amount: base amount, then the per-symbol
multiplier, then the position cap (validation.ts:898-937). -/
def preQuantAmount (env : ReplicationEnv) (rel : CopyRelationship) (t : Trade) :
    Except SkipReason ℚ :=
  (baseAmount env rel t).map
    (fun b => afterPositionCap rel t (afterSymbolMult rel t.symbol.toUpper b))

/-- The first lot-size quantization (validation.ts:944). -/
def quantizedAmount (env : ReplicationEnv) (rel : CopyRelationship) (t : Trade) :
    Except SkipReason ℚ :=
  (preQuantAmount env rel t).map (quantizeLot (effectiveLotSize env))

/-- The leverage clamp (validation.ts:974-981): `min(copierAmount,
available * custom_leverage / price)`, re-quantized to the lot size. -/
def leverageClamp (env : ReplicationEnv) (t : Trade) (avail lev x : ℚ) : ℚ :=
  quantizeLot (effectiveLotSize env) (min x (avail * lev / t.price))

/-- `positions.reduce((sum, p) => sum + amount * price, 0)`
(validation.ts:1017-1021). -/
def currentExposure (ps : List (ℚ × ℚ)) : ℚ :=
  ps.foldl (fun s p => s + p.1 * p.2) 0

/-- The custom-leverage block (validation.ts:973-990) as a gate from the
first quantized amount to the final amount: when `custom_leverage` is
truthy, clamp and re-quantize, skipping if the result is at or below
zero; otherwise pass the amount through. -/
def leverageGate (env : ReplicationEnv) (rel : CopyRelationship) (t : Trade)
    (avail q1 : ℚ) : Except SkipReason ℚ :=
  match truthyOpt rel.custom_leverage with
  | some lev =>
    if leverageClamp env t avail lev q1 ≤ 0 then .error .belowLotAfterLeverage
    else .ok (leverageClamp env t avail lev q1)
  | none => .ok q1

/-- The max-total-exposure block (validation.ts:1003-1029) as a gate: when
the limit is truthy, require the public client, and — only when the
positions read succeeds — skip if current exposure plus the new order's
notional exceeds the limit; a failed positions read bypasses the check. -/
def exposureGate (env : ReplicationEnv) (rel : CopyRelationship) (t : Trade)
    (amt : ℚ) : Except SkipReason Unit :=
  match truthyOpt rel.max_total_exposure with
  | some mte =>
    if env.publicClientAvailable = false then .error .noPublicClient
    else if env.positionsFetchOk then
      if mte < currentExposure env.positions + amt * t.price then .error .exposureExceeded
      else .ok ()
    else .ok ()
  | none => .ok ()

/-- The market order built at validation.ts:1036-1042. -/
def mkOrder (t : Trade) (amt : ℚ) (side : String) : MarketOrder :=
  { symbol := t.symbol
    amount := amt
    side := side
    slippage_percent := 1 / 2
    reduce_only := includesStr t.side "close" }

/-- The `try` block of `replicateToUser` (validation.ts:862-1047), in
source order.  A `.error` is an exception escaping the block, carrying the
order if `createMarketOrder` had already been invoked; a `.ok` is a normal
completion (early `return`s included). -/
def replicateToUserTry (env : ReplicationEnv) (rel : CopyRelationship) (t : Trade) :
    Except (RepError × Option MarketOrder) RepOutcome :=
  -- symbol allow-list (validation.ts:864-867), on the raw trade symbol
  if !rel.symbols.isEmpty && !(rel.symbols.contains t.symbol) then
    .ok ⟨none, .skip .symbolFiltered⟩
  else
    -- decryptApiKey with its own inner catch (validation.ts:870-879)
    match env.decryptResult with
    | none => .ok ⟨none, .skip .decryptFailed⟩
    | some _ =>
      -- missing PACIFICA_API_URL (validation.ts:882-886)
      match env.apiUrl with
      | none => .ok ⟨none, .skip .apiUrlMissing⟩
      | some _ =>
        match quantizedAmount env rel t with
        | .error r => .ok ⟨none, .skip r⟩
        | .ok q1 =>
          -- quantized amount at or below zero (validation.ts:946-949)
          if q1 ≤ 0 then .ok ⟨none, .skip .belowLotSize⟩
          else
            -- balance read, both branches (validation.ts:952-971)
            match env.accountBalance with
            | none => .ok ⟨none, .skip .balanceReadFailed⟩
            | some avail =>
              -- custom leverage clamp + re-quantization (validation.ts:973-990)
              match leverageGate env rel t avail q1 with
              | .error r => .ok ⟨none, .skip r⟩
              | .ok amt =>
                -- insufficient balance (validation.ts:995-1000)
                if avail < amt * t.price then .ok ⟨none, .skip .insufficientBalance⟩
                else
                  -- max total exposure (validation.ts:1003-1029)
                  match exposureGate env rel t amt with
                  | .error r => .ok ⟨none, .skip r⟩
                  | .ok _ =>
                    -- side / reduce-only / submission (validation.ts:1032-1046)
                    match getSide t.side with
                    | .error e => .error (e, none)
                    | .ok side =>
                      match env.orderResult with
                      | .error msg => .error (.submitReject msg, some (mkOrder t amt side))
                      | .ok true => .ok ⟨some (mkOrder t amt side), .orderOk⟩
                      | .ok false => .ok ⟨some (mkOrder t amt side), .orderFailedLogged⟩

/-- `replicateToUser` (validation.ts:861-1051): the `try` block under the
outer `catch`, which logs the error and completes normally. -/
def replicateToUser (env : ReplicationEnv) (rel : CopyRelationship) (t : Trade) :
    RepOutcome :=
  match replicateToUserTry env rel t with
  | .ok o => o
  | .error (e, sub) => ⟨sub, .caught e⟩

/-- The fan-out of `replicateTrade` (validation.ts:1077-1080):
one `replicateToUser` task per relationship, with a per-task environment
indexed by the relationship's position in the list. -/
def replicateTradeAux (envs : ℕ → ReplicationEnv) (t : Trade) :
    ℕ → List CopyRelationship → List RepOutcome
  | _, [] => []
  | i, r :: rs => replicateToUser (envs i) r t :: replicateTradeAux envs t (i + 1) rs

/-- `Promise.all(relationships.map(rel => replicateToUser(rel, trade)))`
(validation.ts:1078-1080). -/
def replicateTrade (envs : ℕ → ReplicationEnv) (rels : List CopyRelationship)
    (t : Trade) : List RepOutcome :=
  replicateTradeAux envs t 0 rels

/-! ## Signing canonicalization (rest-client.ts:61-96)

`sign` recursively sorts all object keys (`sortKeys`), serializes with
`JSON.stringify` (compact: no added whitespace) and signs the UTF-8 bytes.
JSON values are modelled by `JVal`; the numbers that occur in signed
payloads (`timestamp`, `expiry_window`) are integers. -/

/-- A JSON value as produced by the JavaScript object literals handed to
`sign` (rest-client.ts:195-206, 265-277, 330-337). -/
inductive JVal where
  | null
  | bool (b : Bool)
  | num (n : Int)
  | str (s : String)
  | arr (elems : List JVal)
  | obj (fields : List (String × JVal))

/-- Field comparison by key, the order `Object.keys(obj).sort()` uses. -/
def keyLE (a b : String × JVal) : Prop := a.1 ≤ b.1

/-- Strict field comparison by key. -/
def keyLT (a b : String × JVal) : Prop := a.1 < b.1

instance : DecidableRel keyLE := fun a b => inferInstanceAs (Decidable (a.1 ≤ b.1))

instance : IsTotal (String × JVal) keyLE := ⟨fun a b => le_total a.1 b.1⟩

instance : IsTrans (String × JVal) keyLE := ⟨fun _ _ _ h1 h2 => le_trans h1 h2⟩

instance : IsAntisymm (String × JVal) keyLT :=
  ⟨fun _ _ h1 h2 => absurd (lt_trans h1 h2) (lt_irrefl _)⟩

mutual

/-- `sortKeys` (rest-client.ts:61-71): primitives unchanged, arrays mapped
element-wise, objects rebuilt with their keys in sorted order and their
values recursively sorted. -/
def sortKeys : JVal → JVal
  | .null => .null
  | .bool b => .bool b
  | .num n => .num n
  | .str s => .str s
  | .arr xs => .arr (sortKeysList xs)
  | .obj kvs => .obj (List.insertionSort keyLE (sortKeysFields kvs))

/-- `obj.map((item) => this.sortKeys(item))` (rest-client.ts:63). -/
def sortKeysList : List JVal → List JVal
  | [] => []
  | x :: xs => sortKeys x :: sortKeysList xs

/-- The `reduce` over sorted keys (rest-client.ts:65-70), before sorting:
each field's value recursively sorted. -/
def sortKeysFields : List (String × JVal) → List (String × JVal)
  | [] => []
  | (k, v) :: kvs => (k, sortKeys v) :: sortKeysFields kvs

end

/-- `JSON.stringify` escaping of one character inside a string literal
(quote and backslash; the signed payloads contain no control
characters). -/
def escapeChar (c : Char) : String :=
  if c = '"' ∨ c = '\\' then "\\" ++ String.singleton c else String.singleton c

/-- `JSON.stringify` body of a string. -/
def jsonEscape (s : String) : String := String.join (s.data.map escapeChar)

/-- A JSON string literal. -/
def jsonString (s : String) : String := "\"" ++ jsonEscape s ++ "\""

mutual

/-- Compact `JSON.stringify` (rest-client.ts:86: no replacer, no
spacing). -/
def serialize : JVal → String
  | .null => "null"
  | .bool b => if b then "true" else "false"
  | .num n => toString n
  | .str s => jsonString s
  | .arr xs => "[" ++ serializeItems xs ++ "]"
  | .obj kvs => "\x7b" ++ serializeFields kvs ++ "\x7d"

/-- Comma-joined array elements. -/
def serializeItems : List JVal → String
  | [] => ""
  | [x] => serialize x
  | x :: y :: xs => serialize x ++ "," ++ serializeItems (y :: xs)

/-- Comma-joined `key:value` fields. -/
def serializeFields : List (String × JVal) → String
  | [] => ""
  | [(k, v)] => jsonString k ++ ":" ++ serialize v
  | (k, v) :: f :: fs => jsonString k ++ ":" ++ serialize v ++ "," ++ serializeFields (f :: fs)

end

/-- Equality of JSON values as nested finite maps: primitives equal,
arrays equal element-wise in position, objects (with duplicate-free keys,
as JavaScript object literals guarantee) carrying the same key→value
bindings in any key order.  The middle list `m` is the reordering of the
second object's fields that matches the first's field order. -/
inductive JEquiv : JVal → JVal → Prop
  | null : JEquiv .null .null
  | bool (b : Bool) : JEquiv (.bool b) (.bool b)
  | num (n : Int) : JEquiv (.num n) (.num n)
  | str (s : String) : JEquiv (.str s) (.str s)
  | arr (xs ys : List JVal) (hlen : xs.length = ys.length)
      (hval : ∀ p ∈ xs.zip ys, JEquiv p.1 p.2) :
      JEquiv (.arr xs) (.arr ys)
  | obj (l1 l2 m : List (String × JVal))
      (hperm : m.Perm l2)
      (hn1 : (l1.map Prod.fst).Nodup)
      (hn2 : (l2.map Prod.fst).Nodup)
      (hlen : l1.length = m.length)
      (hkey : ∀ p ∈ l1.zip m, p.1.1 = p.2.1)
      (hval : ∀ p ∈ l1.zip m, JEquiv p.1.2 p.2.2) :
      JEquiv (.obj l1) (.obj l2)

/-! ## Concrete fixtures

Named concrete inputs used to evaluate the pipeline on the scenarios of
the specification (§8). -/

/-- An environment in which every network read succeeds and the exchange
accepts the order. -/
def envOk : ReplicationEnv :=
  { decryptResult := some "agent-key"
    apiUrl := some "https://api"
    accountBalance := some 1000
    marketLotSize := some (1 / 1000)
    publicClientAvailable := true
    positionsFetchOk := true
    positions := [(1, 10)]
    orderResult := .ok true }

/-- `envOk` but with a failing open-positions read and large existing
positions. -/
def envPosFetchFails : ReplicationEnv :=
  { envOk with positionsFetchOk := false, positions := [(1, 1000)] }

/-- `envOk` but with a failing credential decryption. -/
def envNoDecrypt : ReplicationEnv :=
  { envOk with decryptResult := none }

/-- Scenario A relationship: multiplier sizing at `0.5`, no caps. -/
def relMult : CopyRelationship :=
  { user_wallet := "U"
    master_wallet := "M"
    encrypted_api_key := "E"
    symbols := []
    sizing_method := "multiplier"
    sizing_value := 1 / 2
    symbol_multipliers := []
    max_position_cap := none
    custom_leverage := none
    max_total_exposure := none
    is_active := true }

/-- Scenario B relationship: `fixed_usd` sizing at `100`. -/
def relFixed : CopyRelationship :=
  { relMult with sizing_method := "fixed_usd", sizing_value := 100 }

/-- `relMult` with a loose max-total-exposure limit of `1000`. -/
def relExposureLoose : CopyRelationship :=
  { relMult with max_total_exposure := some 1000 }

/-- `relMult` with a tight max-total-exposure limit of `10`. -/
def relExposureTight : CopyRelationship :=
  { relMult with max_total_exposure := some 10 }

/-- Scenario A/B Fill: `BTC open_long 0.002 @ 50000`. -/
def tradeBtc : Trade :=
  { symbol := "BTC", side := "open_long", amount := 1 / 500, price := 50000 }

/-- `tradeBtc` with a zero fill amount, so the sized amount quantizes to
zero. -/
def tradeZero : Trade := { tradeBtc with amount := 0 }

end Pacifica

namespace Pacifica

/-! ## Theorems -/

/-- C7: for every lot size `> 0`, the amount quantization
`q(x) = floor(x / lotSize) * lotSize` is idempotent, and for `x ≥ 0` it
rounds toward zero: `q(x) ≤ x`. -/
theorem quantize_idempotent_rounds_down (lot x : ℚ) (hlot : 0 < lot) :
    quantizeLot lot (quantizeLot lot x) = quantizeLot lot x ∧
    (0 ≤ x → quantizeLot lot x ≤ x) := by
  have hne : lot ≠ 0 := ne_of_gt hlot
  constructor
  · unfold quantizeLot
    rw [mul_div_cancel_right₀ _ hne, Int.floor_intCast]
  · intro _
    unfold quantizeLot
    calc (⌊x / lot⌋ : ℚ) * lot ≤ x / lot * lot :=
          mul_le_mul_of_nonneg_right (Int.floor_le _) (le_of_lt hlot)
      _ = x := div_mul_cancel₀ x hne

theorem quantize_idempotent_rounds_down_witness :
    quantizeLot (1 / 10) (quantizeLot (1 / 10) (3 / 4)) = quantizeLot (1 / 10) (3 / 4) ∧
    (0 ≤ (3 / 4 : ℚ) → quantizeLot (1 / 10) (3 / 4) ≤ 3 / 4) :=
  quantize_idempotent_rounds_down (1 / 10) (3 / 4) (by norm_num)

/-! ### The dispatcher's rate bound (C4) -/

theorem rlRun_final_eq :
    ∀ (as : List RLAction) (c : ℕ), RLAction.tick ∉ as →
      (rlRun c as).1 = c + (rlRun c as).2
  | [], c, _ => rfl
  | a :: as, c, h => by
    have ha : a ≠ RLAction.tick := fun hh => h (hh ▸ List.mem_cons_self a as)
    have has : RLAction.tick ∉ as := fun hh => h (List.mem_cons_of_mem a hh)
    cases a with
    | tick => exact absurd rfl ha
    | tryDispatch =>
      by_cases hc : c < maxRequestsPerMinute
      · have := rlRun_final_eq as (c + 1) has
        simp [rlRun, rlStep, hc]
        omega
      · have := rlRun_final_eq as c has
        simp [rlRun, rlStep, hc]
        omega

theorem rlRun_final_le :
    ∀ (as : List RLAction) (c : ℕ), RLAction.tick ∉ as →
      c ≤ maxRequestsPerMinute → (rlRun c as).1 ≤ maxRequestsPerMinute
  | [], _, _, hc => hc
  | a :: as, c, h, hc => by
    have ha : a ≠ RLAction.tick := fun hh => h (hh ▸ List.mem_cons_self a as)
    have has : RLAction.tick ∉ as := fun hh => h (List.mem_cons_of_mem a hh)
    cases a with
    | tick => exact absurd rfl ha
    | tryDispatch =>
      by_cases hcc : c < maxRequestsPerMinute
      · have := rlRun_final_le as (c + 1) has (by omega)
        simp [rlRun, rlStep, hcc]
        omega
      · have := rlRun_final_le as c has hc
        simp [rlRun, rlStep, hcc]
        omega

theorem rlRun_append :
    ∀ (xs ys : List RLAction) (c : ℕ),
      rlRun c (xs ++ ys)
        = ((rlRun (rlRun c xs).1 ys).1, (rlRun c xs).2 + (rlRun (rlRun c xs).1 ys).2)
  | [], ys, c => by simp [rlRun]
  | x :: xs, ys, c => by
    have ih := rlRun_append xs ys (rlStep c x).1
    simp only [List.cons_append, rlRun]
    simp only [List.append_eq] at ih ⊢
    rw [ih]
    simp [Nat.add_assoc]

/-- C4: between two consecutive resets of the rate counter (the fixed
60-second tick of rest-client.ts:53-55), the dispatcher dispatches at most
`maxRequestsPerMinute = 90` requests, and the tick resets the counter to
zero from any value (a fixed window, not a sliding one). -/
theorem dispatcher_window_bound (pre mid : List RLAction)
    (hmid : RLAction.tick ∉ mid) :
    (rlRun (rlRun 0 (pre ++ [RLAction.tick])).1 mid).2 ≤ maxRequestsPerMinute ∧
    (∀ c, rlStep c RLAction.tick = (0, false)) := by
  have hzero : (rlRun 0 (pre ++ [RLAction.tick])).1 = 0 := by
    rw [rlRun_append]
    simp [rlRun, rlStep]
  constructor
  · rw [hzero]
    have h1 := rlRun_final_eq mid 0 hmid
    have h2 := rlRun_final_le mid 0 hmid (by norm_num)
    omega
  · intro c
    rfl

theorem dispatcher_window_bound_witness :
    (rlRun (rlRun 0 ([] ++ [RLAction.tick])).1
        [RLAction.tryDispatch, RLAction.tryDispatch]).2 ≤ maxRequestsPerMinute ∧
    (∀ c, rlStep c RLAction.tick = (0, false)) :=
  dispatcher_window_bound [] [RLAction.tryDispatch, RLAction.tryDispatch] (by decide)

/-- C5: a queued request receiving HTTP 429 is retried exactly once after
a 1000 ms delay, re-inserted at the front of the FIFO queue; a second 429
rejects its promise with the rate-limit error, removes it from the queue,
and no third attempt happens. -/
theorem rate_limit_retry_once (r : QueuedRequest) (rest : List QueuedRequest)
    (h0 : r.retryCount = 0) :
    dispatchHead (r :: rest) 429
      = ({ r with retryCount := 1 } :: rest, none, some 1000) ∧
    dispatchHead ({ r with retryCount := 1 } :: rest) 429
      = (rest, some (r.id, ReqSettle.rejectedRateLimit), none) := by
  constructor
  · simp [dispatchHead, h0]
  · simp [dispatchHead]

theorem rate_limit_retry_once_witness :
    dispatchHead [({ id := 5, retryCount := 0 } : QueuedRequest)] 429
      = ([{ id := 5, retryCount := 1 }], none, some 1000) ∧
    dispatchHead [({ id := 5, retryCount := 1 } : QueuedRequest)] 429
      = ([], some (5, ReqSettle.rejectedRateLimit), none) :=
  rate_limit_retry_once ⟨5, 0⟩ [] rfl

/-- C6: for the `k`-th consecutive failed feed connection, `1 ≤ k ≤ 10`,
`reconnect()` schedules the next attempt after
`baseReconnectDelay * 2 ^ (k-1)` ms — i.e. `1, 2, 4, …, 512` time units of
1000 ms — and advances the attempt counter to `k`; from the cap on (the
11th failure), no reconnection is scheduled and the terminal error is
emitted to the owner. -/
theorem reconnect_backoff (k : ℕ) (h1 : 1 ≤ k) (h10 : k ≤ maxReconnectAttempts) :
    reconnectStep (k - 1)
      = (.schedule (baseReconnectDelay * 2 ^ (k - 1)), k) ∧
    (∀ n, maxReconnectAttempts ≤ n → reconnectStep n = (.giveUpFatal, n)) := by
  constructor
  · unfold reconnectStep
    rw [if_neg (by unfold maxReconnectAttempts at *; omega)]
    congr 1
    omega
  · intro n hn
    unfold reconnectStep
    rw [if_pos hn]

theorem reconnect_backoff_witness :
    reconnectStep (10 - 1)
      = (.schedule (baseReconnectDelay * 2 ^ (10 - 1)), 10) ∧
    (∀ n, maxReconnectAttempts ≤ n → reconnectStep n = (.giveUpFatal, n)) :=
  reconnect_backoff 10 (by decide) (by decide)

/-- C2 (code-bug evidence): with one active master `"M"`, the first
connection's `connected` handler subscribes it; after an unexpected close
(whose handler does not clear `activeSubscriptions`) the reconnected
session's handler sends *no* subscribe command at all, because `"M"` is
still in the set — the SubscriptionSet is not replayed on reconnect. -/
theorem reconnect_replays_no_subscriptions :
    (onConnectedHandler ["M"] []).2 = [WsCommand.subscribe "M"] ∧
    (onConnectedHandler ["M"]
        (onDisconnectedHandler (onConnectedHandler ["M"] []).1)).2 = [] := by
  constructor <;> rfl

/-! ### The replication pipeline -/

theorem replicateToUser_of_ok (env : ReplicationEnv) (rel : CopyRelationship)
    (t : Trade) (r : RepOutcome) (h : replicateToUserTry env rel t = .ok r) :
    replicateToUser env rel t = r := by
  unfold replicateToUser
  rw [h]

theorem replicateToUser_of_error (env : ReplicationEnv) (rel : CopyRelationship)
    (t : Trade) (e : RepError) (s : Option MarketOrder)
    (h : replicateToUserTry env rel t = .error (e, s)) :
    replicateToUser env rel t = ⟨s, .caught e⟩ := by
  unfold replicateToUser
  rw [h]

/-- Every run of the `try` block ends in one of three shapes: an early
skip, an exception thrown before the submission, or a submission of
`mkOrder t amt side` where `amt` passed every gate. -/
theorem try_cases (env : ReplicationEnv) (rel : CopyRelationship) (t : Trade) :
    (∃ r, replicateToUserTry env rel t = .ok ⟨none, .skip r⟩) ∨
    (∃ e, replicateToUserTry env rel t = .error (e, none)) ∨
    (∃ q1 avail amt side,
        quantizedAmount env rel t = .ok q1 ∧ ¬ q1 ≤ 0 ∧
        env.accountBalance = some avail ∧
        leverageGate env rel t avail q1 = .ok amt ∧
        ¬ avail < amt * t.price ∧
        exposureGate env rel t amt = .ok () ∧
        getSide t.side = .ok side ∧
        (replicateToUserTry env rel t = .ok ⟨some (mkOrder t amt side), .orderOk⟩ ∨
         replicateToUserTry env rel t = .ok ⟨some (mkOrder t amt side), .orderFailedLogged⟩ ∨
         (∃ msg, replicateToUserTry env rel t
            = .error (.submitReject msg, some (mkOrder t amt side))))) := by
  unfold replicateToUserTry
  split
  · exact Or.inl ⟨_, rfl⟩
  · split
    · exact Or.inl ⟨_, rfl⟩
    · split
      · exact Or.inl ⟨_, rfl⟩
      · split
        · exact Or.inl ⟨_, rfl⟩
        · split
          · exact Or.inl ⟨_, rfl⟩
          · split
            · exact Or.inl ⟨_, rfl⟩
            · split
              · exact Or.inl ⟨_, rfl⟩
              · split
                · exact Or.inl ⟨_, rfl⟩
                · split
                  · exact Or.inl ⟨_, rfl⟩
                  · split
                    · exact Or.inr (Or.inl ⟨_, rfl⟩)
                    · split
                      · exact Or.inr (Or.inr ⟨_, _, _, _, by assumption, by assumption,
                          by assumption, by assumption, by assumption, by assumption,
                          by assumption, Or.inr (Or.inr ⟨_, rfl⟩)⟩)
                      · exact Or.inr (Or.inr ⟨_, _, _, _, by assumption, by assumption,
                          by assumption, by assumption, by assumption, by assumption,
                          by assumption, Or.inl rfl⟩)
                      · exact Or.inr (Or.inr ⟨_, _, _, _, by assumption, by assumption,
                          by assumption, by assumption, by assumption, by assumption,
                          by assumption, Or.inr (Or.inl rfl)⟩)

/-- If a run submitted an order, then a quantized amount, a balance, the
leverage gate, the balance check and the exposure gate all passed, and the
order's amount is the gated amount. -/
theorem submitted_inv (env : ReplicationEnv) (rel : CopyRelationship) (t : Trade)
    (o : MarketOrder) (hsub : (replicateToUser env rel t).submitted = some o) :
    ∃ q1 avail,
      quantizedAmount env rel t = .ok q1 ∧ 0 < q1 ∧
      env.accountBalance = some avail ∧
      leverageGate env rel t avail q1 = .ok o.amount ∧
      o.amount * t.price ≤ avail ∧
      exposureGate env rel t o.amount = .ok () := by
  rcases try_cases env rel t with ⟨r, h⟩ | ⟨e, h⟩ | ⟨q1, avail, amt, side, hq, hq1, hbal,
      hlev, hcost, hexp, hside, hfin⟩
  · rw [replicateToUser_of_ok env rel t _ h] at hsub
    simp at hsub
  · rw [replicateToUser_of_error env rel t e none h] at hsub
    simp at hsub
  · have hamt : o.amount = amt := by
      rcases hfin with h | h | ⟨msg, h⟩
      · rw [replicateToUser_of_ok env rel t _ h] at hsub
        simp only [RepOutcome.mk.injEq] at hsub
        rw [Option.some_inj] at hsub
        rw [← hsub]
        rfl
      · rw [replicateToUser_of_ok env rel t _ h] at hsub
        simp only [RepOutcome.mk.injEq] at hsub
        rw [Option.some_inj] at hsub
        rw [← hsub]
        rfl
      · rw [replicateToUser_of_error env rel t _ _ h] at hsub
        simp only [RepOutcome.mk.injEq] at hsub
        rw [Option.some_inj] at hsub
        rw [← hsub]
        rfl
    refine ⟨q1, avail, hq, lt_of_not_le hq1, hbal, ?_, ?_, ?_⟩
    · rw [hamt]
      exact hlev
    · rw [hamt]
      exact le_of_not_lt hcost
    · rw [hamt]
      exact hexp

/-- Inverting a passed exposure gate. -/
theorem exposureGate_ok (env : ReplicationEnv) (rel : CopyRelationship) (t : Trade)
    (amt : ℚ) (h : exposureGate env rel t amt = .ok ()) :
    ∀ mte, truthyOpt rel.max_total_exposure = some mte →
      env.publicClientAvailable = true ∧
      (env.positionsFetchOk = true →
        currentExposure env.positions + amt * t.price ≤ mte) := by
  intro mte hmte
  unfold exposureGate at h
  split at h
  · rename_i mte' heq
    rw [hmte] at heq
    injection heq with heq
    subst heq
    split at h
    · cases h
    · rename_i hpub
      have hpub' : env.publicClientAvailable = true := by
        cases hb : env.publicClientAvailable
        · exact absurd hb hpub
        · rfl
      refine ⟨hpub', ?_⟩
      intro hfetch
      split at h
      · split at h
        · cases h
        · rename_i hlt
          exact le_of_not_lt hlt
      · rename_i hfetch'
        exact absurd hfetch hfetch'
  · rename_i heq
    rw [hmte] at heq
    cases heq

/-- A truthy custom leverage whose clamp lands at or below zero makes the
leverage gate skip. -/
theorem leverageGate_skip (env : ReplicationEnv) (rel : CopyRelationship) (t : Trade)
    (avail q1 lev : ℚ) (hlev : truthyOpt rel.custom_leverage = some lev)
    (hle : leverageClamp env t avail lev q1 ≤ 0) :
    leverageGate env rel t avail q1 = .error .belowLotAfterLeverage := by
  unfold leverageGate
  rw [hlev]
  simp [hle]

/-- C1 (amended): an order is submitted only if its notional
(amount × price) is at most the available balance; and, when
`max_total_exposure` is configured (truthy), only with the public client
present and — provided the open-positions read succeeds — only if current
open-position notional plus the new order's notional is at most the
limit.  A failed positions read bypasses the exposure comparison. -/
theorem order_submits_only_within_limits (env : ReplicationEnv)
    (rel : CopyRelationship) (t : Trade) (o : MarketOrder)
    (hsub : (replicateToUser env rel t).submitted = some o) :
    (∃ avail, env.accountBalance = some avail ∧ o.amount * t.price ≤ avail) ∧
    (∀ mte, truthyOpt rel.max_total_exposure = some mte →
        env.publicClientAvailable = true ∧
        (env.positionsFetchOk = true →
          currentExposure env.positions + o.amount * t.price ≤ mte)) := by
  obtain ⟨q1, avail, hq, hq1, hbal, hlev, hcost, hexp⟩ := submitted_inv env rel t o hsub
  exact ⟨⟨avail, hbal, hcost⟩, exposureGate_ok env rel t o.amount hexp⟩

/-- Concrete evaluation: the Scenario A Fill against `relExposureLoose`
runs to a submitted, accepted order of `0.001` BTC. -/
theorem try_eval_exposureLoose :
    replicateToUserTry envOk relExposureLoose tradeBtc
      = .ok ⟨some (mkOrder tradeBtc (1 / 1000) "bid"), .orderOk⟩ := by
  have hq : quantizedAmount envOk relExposureLoose tradeBtc = .ok (1 / 1000) := by
    norm_num [quantizedAmount, preQuantAmount, baseAmount, afterSymbolMult,
      afterPositionCap, truthyOpt, effectiveLotSize, quantizeLot, relMult,
      relExposureLoose, tradeBtc, envOk, List.find?, Except.map]
  unfold replicateToUserTry
  rw [hq]
  norm_num [leverageGate, leverageClamp, truthyOpt, exposureGate, currentExposure,
    getSide, relExposureLoose, relMult, envOk, tradeBtc]

theorem run_eval_exposureLoose :
    replicateToUser envOk relExposureLoose tradeBtc
      = ⟨some (mkOrder tradeBtc (1 / 1000) "bid"), .orderOk⟩ :=
  replicateToUser_of_ok _ _ _ _ try_eval_exposureLoose

theorem order_submits_only_within_limits_witness :
    (∃ avail, envOk.accountBalance = some avail ∧
        (mkOrder tradeBtc (1 / 1000) "bid").amount * tradeBtc.price ≤ avail) ∧
    (∀ mte, truthyOpt relExposureLoose.max_total_exposure = some mte →
        envOk.publicClientAvailable = true ∧
        (envOk.positionsFetchOk = true →
          currentExposure envOk.positions
            + (mkOrder tradeBtc (1 / 1000) "bid").amount * tradeBtc.price ≤ mte)) :=
  order_submits_only_within_limits envOk relExposureLoose tradeBtc
    (mkOrder tradeBtc (1 / 1000) "bid") (by rw [run_eval_exposureLoose])

/-- C1 counterexample: when the open-positions read fails, the exposure
check is bypassed and the order submits although current open-position
notional (1000) plus the new notional (50) exceeds the configured
max_total_exposure of 10. -/
theorem exposure_limit_violated_when_positions_read_fails :
    replicateToUser envPosFetchFails relExposureTight tradeBtc
      = ⟨some (mkOrder tradeBtc (1 / 1000) "bid"), .orderOk⟩ ∧
    relExposureTight.max_total_exposure = some 10 ∧
    10 < currentExposure envPosFetchFails.positions
        + (mkOrder tradeBtc (1 / 1000) "bid").amount * tradeBtc.price := by
  have hq : quantizedAmount envPosFetchFails relExposureTight tradeBtc
      = .ok (1 / 1000) := by
    norm_num [quantizedAmount, preQuantAmount, baseAmount, afterSymbolMult,
      afterPositionCap, truthyOpt, effectiveLotSize, quantizeLot, relMult,
      relExposureTight, tradeBtc, envOk, envPosFetchFails, List.find?, Except.map]
  refine ⟨replicateToUser_of_ok _ _ _ _ ?_, rfl, ?_⟩
  · unfold replicateToUserTry
    rw [hq]
    norm_num [leverageGate, leverageClamp, truthyOpt, exposureGate, currentExposure,
      getSide, relExposureTight, relMult, envOk, envPosFetchFails, tradeBtc]
  · norm_num [currentExposure, envPosFetchFails, envOk, mkOrder, tradeBtc]

/-- C3: the pre-clamp base amount is `fillAmount * sizing_value` for
`multiplier`, `sizing_value / fillPrice` for `fixed_usd`, and
`(availableBalance * sizing_value / 100) / fillPrice` for
`balance_percent` — the latter after a balance read, whose failure skips
the relationship. -/
theorem base_amount_by_method (env : ReplicationEnv) (rel : CopyRelationship)
    (t : Trade) :
    (rel.sizing_method = "multiplier" →
        baseAmount env rel t = .ok (t.amount * rel.sizing_value)) ∧
    (rel.sizing_method = "fixed_usd" →
        baseAmount env rel t = .ok (rel.sizing_value / t.price)) ∧
    (rel.sizing_method = "balance_percent" →
        (∀ avail, env.accountBalance = some avail →
            baseAmount env rel t = .ok (avail * rel.sizing_value / 100 / t.price)) ∧
        (env.accountBalance = none →
            baseAmount env rel t = .error .balanceReadFailed)) := by
  refine ⟨?_, ?_, ?_⟩
  · intro h
    simp [baseAmount, h]
  · intro h
    simp [baseAmount, h]
  · intro h
    constructor
    · intro avail hb
      simp [baseAmount, h, hb]
    · intro hb
      simp [baseAmount, h, hb]

theorem base_amount_by_method_witness :
    baseAmount envOk relFixed tradeBtc = .ok (1 / 500) := by
  have h := (base_amount_by_method envOk relFixed tradeBtc).2.1 rfl
  rw [h]
  norm_num [relFixed, relMult, tradeBtc]

/-- C8: if the sized amount quantizes to at most zero — at the first
lot-size quantization, or at the re-quantization after the leverage
clamp — the relationship is skipped and nothing is submitted. -/
theorem zero_quantized_amount_never_submitted (env : ReplicationEnv)
    (rel : CopyRelationship) (t : Trade) :
    (∀ q1, quantizedAmount env rel t = .ok q1 → q1 ≤ 0 →
        (replicateToUser env rel t).submitted = none) ∧
    (∀ q1 avail lev, quantizedAmount env rel t = .ok q1 →
        env.accountBalance = some avail →
        truthyOpt rel.custom_leverage = some lev →
        leverageClamp env t avail lev q1 ≤ 0 →
        (replicateToUser env rel t).submitted = none) := by
  constructor
  · intro q1 hq hle
    cases hsub : (replicateToUser env rel t).submitted with
    | none => rfl
    | some o =>
      obtain ⟨q1', _, hq', hq1', _, _, _, _⟩ := submitted_inv env rel t o hsub
      rw [hq] at hq'
      injection hq' with h
      subst h
      exact absurd hle (not_le.mpr hq1')
  · intro q1 avail lev hq hbal hlevS hclamp
    cases hsub : (replicateToUser env rel t).submitted with
    | none => rfl
    | some o =>
      obtain ⟨q1', avail', hq', _, hbal', hlev', _, _⟩ := submitted_inv env rel t o hsub
      rw [hq] at hq'
      injection hq' with h1
      rw [hbal] at hbal'
      injection hbal' with h2
      rw [← h1, ← h2] at hlev'
      rw [leverageGate_skip env rel t avail q1 lev hlevS hclamp] at hlev'
      exact Except.noConfusion hlev'

theorem zero_quantized_amount_never_submitted_witness :
    (replicateToUser envOk relMult tradeZero).submitted = none :=
  (zero_quantized_amount_never_submitted envOk relMult tradeZero).1 0
    (by norm_num [quantizedAmount, preQuantAmount, baseAmount, afterSymbolMult,
      afterPositionCap, truthyOpt, effectiveLotSize, quantizeLot, relMult, tradeBtc,
      tradeZero, envOk, List.find?, Except.map]) le_rfl

/-! ### Fan-out isolation (C9) -/

theorem replicateTradeAux_length (envs : ℕ → ReplicationEnv) (t : Trade) :
    ∀ (rels : List CopyRelationship) (i : ℕ),
      (replicateTradeAux envs t i rels).length = rels.length
  | [], _ => rfl
  | r :: rs, i => by
    simp [replicateTradeAux, replicateTradeAux_length envs t rs (i + 1)]

theorem replicateTradeAux_get? (envs : ℕ → ReplicationEnv) (t : Trade) :
    ∀ (rels : List CopyRelationship) (i j : ℕ),
      (replicateTradeAux envs t i rels).get? j
        = (rels.get? j).map (fun r => replicateToUser (envs (i + j)) r t)
  | [], i, j => by simp [replicateTradeAux]
  | r :: rs, i, 0 => by simp [replicateTradeAux]
  | r :: rs, i, j + 1 => by
    have hidx : i + 1 + j = i + (j + 1) := by omega
    simp only [replicateTradeAux, List.get?]
    rw [replicateTradeAux_get? envs t rs (i + 1) j, hidx]

/-- C9: the fan-out produces one outcome per relationship, each outcome a
function of that relationship and its own environment alone; every
exception inside the `try` block is converted by the relationship-boundary
`catch` into a `caught` outcome (never a propagating error), and a
credential-decryption failure skips just that relationship. -/
theorem per_relationship_errors_isolated (envs : ℕ → ReplicationEnv)
    (rels : List CopyRelationship) (t : Trade) :
    (replicateTrade envs rels t).length = rels.length ∧
    (∀ j, (replicateTrade envs rels t).get? j
        = (rels.get? j).map (fun r => replicateToUser (envs j) r t)) ∧
    (∀ env rel e sub, replicateToUserTry env rel t = .error (e, sub) →
        replicateToUser env rel t = ⟨sub, .caught e⟩) ∧
    (∀ env rel, (rel.symbols.isEmpty || rel.symbols.contains t.symbol) = true →
        env.decryptResult = none →
        replicateToUser env rel t = ⟨none, .skip .decryptFailed⟩) := by
  refine ⟨replicateTradeAux_length envs t rels 0, ?_, ?_, ?_⟩
  · intro j
    have h := replicateTradeAux_get? envs t rels 0 j
    simpa using h
  · intro env rel e sub h
    exact replicateToUser_of_error env rel t e sub h
  · intro env rel hpass hdec
    have hfil : ¬ ((!rel.symbols.isEmpty && !(rel.symbols.contains t.symbol)) = true) := by
      cases h1 : rel.symbols.isEmpty <;> cases h2 : rel.symbols.contains t.symbol <;>
        simp_all
    apply replicateToUser_of_ok
    unfold replicateToUserTry
    rw [if_neg hfil, hdec]

theorem per_relationship_errors_isolated_witness :
    replicateToUser envNoDecrypt relMult tradeBtc = ⟨none, .skip .decryptFailed⟩ :=
  (per_relationship_errors_isolated (fun _ => envOk) [relMult] tradeBtc).2.2.2
    envNoDecrypt relMult (by decide) rfl

/-! ### Canonicalization (C10) -/

theorem sortKeysList_eq_map : ∀ xs : List JVal, sortKeysList xs = xs.map sortKeys
  | [] => rfl
  | x :: xs => by rw [sortKeysList, List.map_cons, sortKeysList_eq_map xs]

theorem sortKeysFields_eq_map :
    ∀ kvs : List (String × JVal),
      sortKeysFields kvs = kvs.map (fun kv => (kv.1, sortKeys kv.2))
  | [] => rfl
  | (k, v) :: kvs => by rw [sortKeysFields, List.map_cons, sortKeysFields_eq_map kvs]

theorem map_eq_map_of_zip {α β : Type} (f : α → β) :
    ∀ (xs ys : List α), xs.length = ys.length →
      (∀ p ∈ xs.zip ys, f p.1 = f p.2) → xs.map f = ys.map f
  | [], [], _, _ => rfl
  | [], _ :: _, h, _ => by simp at h
  | _ :: _, [], h, _ => by simp at h
  | x :: xs, y :: ys, h, hz => by
    simp only [List.map_cons]
    have h1 : f x = f y := hz (x, y) (by simp)
    have h2 := map_eq_map_of_zip f xs ys (by simpa using h)
      (fun p hp => hz p (by simp [hp]))
    rw [h1, h2]

theorem keys_map_sortKeys (l : List (String × JVal)) :
    (l.map (fun kv => (kv.1, sortKeys kv.2))).map Prod.fst = l.map Prod.fst := by
  induction l with
  | nil => rfl
  | cons a l ih => simp [ih]

theorem sorted_keyLT_of_le_nodup :
    ∀ (l : List (String × JVal)), l.Sorted keyLE → (l.map Prod.fst).Nodup →
      l.Sorted keyLT
  | [], _, _ => List.sorted_nil
  | a :: l, hs, hn => by
    rw [List.sorted_cons] at hs ⊢
    simp only [List.map_cons, List.nodup_cons] at hn
    refine ⟨?_, sorted_keyLT_of_le_nodup l hs.2 hn.2⟩
    intro b hb
    have hle : keyLE a b := hs.1 b hb
    have hne : a.1 ≠ b.1 := fun h => hn.1 (h ▸ List.mem_map_of_mem Prod.fst hb)
    exact lt_of_le_of_ne hle hne

/-- Values equal as nested finite maps canonicalize to the same value:
recursive key sorting erases the original key order. -/
theorem sortKeys_congr {a b : JVal} (h : JEquiv a b) : sortKeys a = sortKeys b := by
  induction h with
  | null => rfl
  | bool b => rfl
  | num n => rfl
  | str s => rfl
  | arr xs ys hlen hval ih =>
    simp only [sortKeys, sortKeysList_eq_map]
    rw [map_eq_map_of_zip sortKeys xs ys hlen ih]
  | obj l1 l2 m hperm hn1 hn2 hlen hkey hval ih =>
    simp only [sortKeys, sortKeysFields_eq_map]
    congr 1
    have hA : l1.map (fun kv => (kv.1, sortKeys kv.2))
        = m.map (fun kv => (kv.1, sortKeys kv.2)) := by
      refine map_eq_map_of_zip _ l1 m hlen ?_
      intro p hp
      exact congrArg₂ Prod.mk (hkey p hp) (ih p hp)
    have hAB : (l1.map (fun kv => (kv.1, sortKeys kv.2))).Perm
        (l2.map (fun kv => (kv.1, sortKeys kv.2))) := by
      rw [hA]
      exact hperm.map _
    have hps1 := List.perm_insertionSort keyLE (l1.map (fun kv => (kv.1, sortKeys kv.2)))
    have hps2 := List.perm_insertionSort keyLE (l2.map (fun kv => (kv.1, sortKeys kv.2)))
    have hperm12 := (hps1.trans hAB).trans hps2.symm
    have hnk1 : ((List.insertionSort keyLE
        (l1.map (fun kv => (kv.1, sortKeys kv.2)))).map Prod.fst).Nodup := by
      rw [(hps1.map Prod.fst).nodup_iff, keys_map_sortKeys]
      exact hn1
    have hnk2 : ((List.insertionSort keyLE
        (l2.map (fun kv => (kv.1, sortKeys kv.2)))).map Prod.fst).Nodup := by
      rw [(hps2.map Prod.fst).nodup_iff, keys_map_sortKeys]
      exact hn2
    exact List.eq_of_perm_of_sorted hperm12
      (sorted_keyLT_of_le_nodup _ (List.sorted_insertionSort keyLE _) hnk1)
      (sorted_keyLT_of_le_nodup _ (List.sorted_insertionSort keyLE _) hnk2)

/-- C10: the canonicalization of `sign` is key-order independent — two
message values equal as nested finite maps serialize, after recursive key
sorting, to the same compact JSON string, so any deterministic signing
function of that string (Ed25519 with a fixed private key included)
produces the same signature for both. -/
theorem sign_key_order_independent (sig : String → String) (a b : JVal)
    (h : JEquiv a b) :
    serialize (sortKeys a) = serialize (sortKeys b) ∧
    sig (serialize (sortKeys a)) = sig (serialize (sortKeys b)) := by
  rw [sortKeys_congr h]
  exact ⟨rfl, rfl⟩

theorem sign_key_order_independent_witness :
    serialize (sortKeys (JVal.obj [("b", .num 1), ("a", .num 2)]))
      = serialize (sortKeys (JVal.obj [("a", .num 2), ("b", .num 1)])) ∧
    id (serialize (sortKeys (JVal.obj [("b", .num 1), ("a", .num 2)])))
      = id (serialize (sortKeys (JVal.obj [("a", .num 2), ("b", .num 1)]))) := by
  refine sign_key_order_independent id _ _ ?_
  refine JEquiv.obj [("b", .num 1), ("a", .num 2)] [("a", .num 2), ("b", .num 1)]
      [("b", .num 1), ("a", .num 2)] ?_ ?_ ?_ rfl ?_ ?_
  · exact List.Perm.swap ("a", JVal.num 2) ("b", JVal.num 1) []
  · decide
  · decide
  · intro p hp
    simp only [List.zip_cons_cons, List.zip_nil_right, List.mem_cons,
      List.not_mem_nil, or_false] at hp
    rcases hp with h | h <;> subst h <;> rfl
  · intro p hp
    simp only [List.zip_cons_cons, List.zip_nil_right, List.mem_cons,
      List.not_mem_nil, or_false] at hp
    rcases hp with h | h <;> subst h <;> exact JEquiv.num _

end Pacifica
